import Mathlib

/-!
Verification development for the self-healing test execution engine of the
QA-Suite repository (source file `backend_1.py`).

The Python source is shallowly embedded: pure string manipulation is
translated to executable Lean functions over `List Char` / `String`;
the stateful retry/healing loop of `run_script` becomes explicit state
passing driven by an environment record (`HealEnv`) that supplies the
outcome of each subprocess invocation, the state of the DOM-dump file
after each attempt, the behaviour of the repair advisor, and the final
state of the JSON report file.  The regular expressions used by the
source are embedded as specialised executable matchers implementing the
semantics of those concrete patterns (leftmost non-overlapping scanning,
lazy/greedy repetition as it plays out for these patterns); character
classes `\w`, `\d`, `\s` are realised over the ASCII range, which covers
every string the engine itself constructs.  Timestamps and the
floating-point duration formatting are not modelled (no claim depends on
them); log entries keep the `action`, `result` and `duration` fields.
-/

/-- Whitespace as matched by Python's `\s` / `str.strip()` (ASCII range). -/
def isPySpace (c : Char) : Bool :=
  c = ' ' || c = '\t' || c = '\n' || c = '\r' || c = '\x0b' || c = '\x0c'

/-- Decimal digit, Python `\d` (ASCII range). -/
def isDigitCh (c : Char) : Bool := '0' ≤ c && c ≤ '9'

/-- Word character, Python `\w` (ASCII range). -/
def isWordCh (c : Char) : Bool := c.isAlpha || isDigitCh c || c = '_'

/-- ASCII lower-casing of one character, as `str.lower()` acts on ASCII. -/
def lcChar (c : Char) : Char :=
  if 'A' ≤ c && c ≤ 'Z' then Char.ofNat (c.toNat + 32) else c

/-- ASCII upper-casing of one character. -/
def ucChar (c : Char) : Char :=
  if 'a' ≤ c && c ≤ 'z' then Char.ofNat (c.toNat - 32) else c

/-- `str.lower()` (ASCII range). -/
def pyLower (s : String) : String := String.mk (s.data.map lcChar)

/-- `str.capitalize()` (ASCII range): first character upper-cased, rest lowered. -/
def capitalizeS (s : String) : String :=
  match s.data with
  | [] => ""
  | c :: rest => String.mk (ucChar c :: rest.map lcChar)

/-- `str.strip()` with no arguments: drop whitespace from both ends. -/
def pyStrip (l : List Char) : List Char :=
  ((l.dropWhile isPySpace).reverse.dropWhile isPySpace).reverse

/-- `str.strip()` on `String`. -/
def pyStripS (s : String) : String := String.mk (pyStrip s.data)

/-- Index of the first occurrence of `pat` in a list (substring search),
`none` when absent.  Mirrors `str.find` for non-empty patterns. -/
def findSub (pat : List Char) : List Char → Option Nat
  | [] => if pat.isEmpty then some 0 else none
  | c :: rest =>
    if pat.isPrefixOf (c :: rest) then some 0
    else (findSub pat rest).map (· + 1)

/-- Python `pat in hay` substring test. -/
def containsSub (pat hay : List Char) : Bool := (findSub pat hay).isSome

/-- Python `hay.replace(old, new, 1)` for non-empty `old`: replace the first
occurrence when present, otherwise return the string unchanged. -/
def replaceFirstS (s old new : String) : String :=
  match findSub old.data s.data with
  | none => s
  | some i =>
    String.mk (s.data.take i ++ new.data ++ s.data.drop (i + old.data.length))

/-- Python `s.split("\n")` over `List Char`. -/
def splitNlGo : List Char → List Char → List (List Char)
  | [], acc => [acc.reverse]
  | c :: rest, acc =>
    if c = '\n' then acc.reverse :: splitNlGo rest []
    else splitNlGo rest (c :: acc)

/-- Python `s.split("\n")`. -/
def splitNl (l : List Char) : List (List Char) := splitNlGo l []

/-- Python `s.split("\n")` on `String`s. -/
def splitLines (s : String) : List String := (splitNl s.data).map String.mk

-- --- FAILURE CLASSIFIER (run_script lines 669-678) ---

/-- The fixed allowlist of repairable error signatures checked (as lowercase
substrings) against the combined stdout+stderr of a failed attempt. -/
def repairableSignatures : List String :=
  ["timeouterror", "locator expected to be visible", "strict mode violation",
   "strict mode error", "attributeerror", "nameerror", "assertionerror"]

/-- The classifier decision of `run_script`: the lowercased combined output
contains at least one known repairable signature. -/
def isRepairableFailure (tb : String) : Bool :=
  repairableSignatures.any (fun sig => containsSub sig.data (pyLower tb).data)

-- --- FAILURE CONTEXT EXTRACTOR (extract_failing_context, lines 551-591) ---

/-- Consume the literal `lit` at the head of `l`, returning the rest. -/
def matchLit (lit l : List Char) : Option (List Char) :=
  if lit.isPrefixOf l then some (l.drop lit.length) else none

/-- Does any suffix of `l` satisfy `p`? (used for unanchored in-line matching). -/
def anySuffix (p : List Char → Bool) : List Char → Bool
  | [] => p []
  | c :: rest => p (c :: rest) || anySuffix p rest

/-- Head-anchored match of `test_script.py", line \d+, in ` (the `.` of the
regex matches any character). -/
def tspAfter (l : List Char) : Bool :=
  match matchLit "test_script".data l with
  | none => false
  | some r =>
    match r with
    | [] => false
    | _ :: r2 =>
      match matchLit "py\", line ".data r2 with
      | none => false
      | some r3 =>
        let ds := r3.takeWhile isDigitCh
        decide (ds ≠ []) && (", in ".data.isPrefixOf (r3.drop ds.length))

/-- One line of the traceback matches the frame-header part of the primary
pattern `File ".*test_script.py", line \d+, in .*` (all of which stays on a
single line because `.` does not match a newline). -/
def primaryHeader (l : List Char) : Bool :=
  match findSub "File \"".data l with
  | none => false
  | some i => anySuffix tspAfter (l.drop (i + 6))

/-- Head-anchored match of `test_script.py:\d+:` (the `.` matches any char). -/
def fbAfter (l : List Char) : Bool :=
  match matchLit "test_script".data l with
  | none => false
  | some r =>
    match r with
    | [] => false
    | _ :: r2 =>
      match matchLit "py:".data r2 with
      | none => false
      | some r3 =>
        let ds := r3.takeWhile isDigitCh
        decide (ds ≠ []) && ([':'].isPrefixOf (r3.drop ds.length))

/-- One line matches the header part of the fallback pattern
`test_script.py:\d+:.*`. -/
def fallbackHeader (l : List Char) : Bool := anySuffix fbAfter l

/-- After a header line, `\n\s*(page..*)` requires every intervening line to
be whitespace-only and the first non-blank line to start (after leading
whitespace) with `page` plus at least one more character; the capture runs to
the end of that line.  Returns the capture and the lines after it. -/
def findPage : List (List Char) → Option (List Char × List (List Char))
  | [] => none
  | l :: rest =>
    if l.all isPySpace then findPage rest
    else
      let r := l.dropWhile isPySpace
      if "page".data.isPrefixOf r && decide (5 ≤ r.length) then some (r, rest)
      else none

/-- Non-overlapping leftmost scan of `re.findall` over the lines of the
traceback: whenever a line matches the header, look for the `page` capture on
the following lines; a successful match consumes up to and including the
captured line.  `fuel` bounds the recursion (instantiated with the number of
lines, which suffices since every step consumes at least one line). -/
def scanMatchesGo (header : List Char → Bool) : Nat → List (List Char) → List (List Char)
  | 0, _ => []
  | _ + 1, [] => []
  | fuel + 1, l :: rest =>
    if header l then
      match findPage rest with
      | some (cap, rest') => cap :: scanMatchesGo header fuel rest'
      | none => scanMatchesGo header fuel rest
    else scanMatchesGo header fuel rest

/-- All group-1 captures of the pattern over the traceback lines. -/
def scanMatches (header : List Char → Bool) (ls : List (List Char)) : List (List Char) :=
  scanMatchesGo header ls.length ls

/-- The traceback, as lines of characters. -/
def tbLines (tb : String) : List (List Char) := (splitLines tb).map String.data

/-- Captures of the primary pattern
`File ".*test_script.py", line \d+, in .*\n\s*(page..*)`. -/
def primaryMatches (tb : String) : List (List Char) :=
  scanMatches primaryHeader (tbLines tb)

/-- Captures of the fallback pattern `test_script.py:\d+:.*\n\s*(page..*)`. -/
def fallbackMatches (tb : String) : List (List Char) :=
  scanMatches fallbackHeader (tbLines tb)

/-- The synthesized intent `"Perform the action: <failing_command>"`. -/
def defaultIntent (fc : List Char) : List Char := "Perform the action: ".data ++ fc

/-- `line.strip().startswith("#")`. -/
def isCommentLine (l : List Char) : Bool := ['#'].isPrefixOf (pyStrip l)

/-- `lstrip("# ")`: drop leading `#` and space characters. -/
def dropHashSpace (l : List Char) : List Char :=
  l.dropWhile (fun c => c = '#' || c = ' ')

/-- `line.strip().lstrip("# ").strip()` applied to a comment line. -/
def cleanComment (l : List Char) : List Char := pyStrip (dropHashSpace (pyStrip l))

/-- The lines strictly before the first line whose stripped text equals `fc`
(`none` when no line matches), mirroring the outer loop of
`extract_failing_context`. -/
def linesBefore : List (List Char) → List Char → Option (List (List Char))
  | [], _ => none
  | l :: rest, fc =>
    if pyStrip l = fc then some []
    else (linesBefore rest fc).map (fun b => l :: b)

/-- The intent search of `extract_failing_context`: locate the first script
line equal (after stripping) to the failing command, then walk backwards to
the nearest preceding comment line; fall back to the synthesized intent. -/
def findIntent (sl : List (List Char)) (fc : List Char) : List Char :=
  match linesBefore sl fc with
  | none => defaultIntent fc
  | some before =>
    match before.reverse.find? isCommentLine with
    | none => defaultIntent fc
    | some cl => cleanComment cl

/-- Embedding of `extract_failing_context(traceback, original_script)`:
primary `re.findall`, fallback pattern when it is empty, last capture
stripped as the failing command, and the comment-walk for the user intent. -/
def extract_failing_context (tb original_script : String) : Option String × String :=
  let ms := primaryMatches tb
  let ms := if ms.isEmpty then fallbackMatches tb else ms
  match ms.getLast? with
  | none => (none, "No specific user intent comment found.")
  | some last =>
    let fc := pyStrip last
    let sl := (splitLines original_script).map String.data
    (some (String.mk fc), String.mk (findIntent sl fc))

-- --- SCRIPT INSTRUMENTOR (add_dom_dumping_to_script, lines 474-548) ---

/-- `dom_dump_path.replace("\\", "\\\\")`. -/
def escapeDomPath (p : List Char) : List Char :=
  p.flatMap (fun c => if c = '\\' then ['\\', '\\'] else [c])

/-- Head-anchored match of `def (test_\w+)\(page\):`, returning the captured
function name and the total match length. -/
def matchTestDef (s : List Char) : Option (List Char × Nat) :=
  match matchLit "def test_".data s with
  | none => none
  | some r =>
    let w := r.takeWhile isWordCh
    if w.isEmpty then none
    else if "(page):".data.isPrefixOf (r.drop w.length)
    then some ("test_".data ++ w, 16 + w.length)
    else none

/-- `re.finditer(r"def (test_\w+)\(page\):", script)`: non-overlapping
left-to-right matches, as pairs (captured name, match end position). -/
def findTestDefsGo : Nat → List Char → Nat → List (List Char × Nat)
  | 0, _, _ => []
  | fuel + 1, s, pos =>
    match matchTestDef s with
    | some (name, len) => (name, pos + len) :: findTestDefsGo fuel (s.drop len) (pos + len)
    | none =>
      match s with
      | [] => []
      | _ :: rest => findTestDefsGo fuel rest (pos + 1)

/-- All test-function definition matches in the script. -/
def findTestDefs (s : List Char) : List (List Char × Nat) :=
  findTestDefsGo (s.length + 1) s 0

/-- `re.search(r"\n(\s+)", tail)`: the first newline followed by at least one
whitespace character; returns the (greedy, maximal) whitespace run and the
offset just past it. -/
def findIndentMatchGo : List Char → Nat → Option (List Char × Nat)
  | [], _ => none
  | c :: rest, idx =>
    if c = '\n' then
      let ws := rest.takeWhile isPySpace
      if ws.isEmpty then findIndentMatchGo rest (idx + 1)
      else some (ws, idx + 1 + ws.length)
    else findIndentMatchGo rest (idx + 1)

/-- Search for the body indentation of a test function. -/
def findIndentMatch (tail : List Char) : Option (List Char × Nat) :=
  findIndentMatchGo tail 0

/-- The body-end scan of `add_dom_dumping_to_script` (lines 512-522): walk the
lines after the first body line, treating blank lines as body, stopping at the
first non-blank line that does not start with the base indentation.  The
running offset counts only the lines after the first one, exactly as the
source does. -/
def goBody : List (List Char) → List Char → Nat → Nat → Nat
  | [], _, _, dflt => dflt
  | l :: rest, ind, cum, dflt =>
    if (pyStrip l).isEmpty then goBody rest ind (cum + l.length + 1) dflt
    else if ind.isPrefixOf l then goBody rest ind (cum + l.length + 1) dflt
    else cum

/-- `body_end_offset` for a remainder and base indentation. -/
def bodyEndOffset (rem ind : List Char) : Nat :=
  match splitNl rem with
  | [] => rem.length
  | _ :: rest => goBody rest ind 0 rem.length

/-- `text.splitlines(True)` for `\n`-separated text: split keeping the
newline terminators; a trailing segment without a newline is kept, an empty
trailing segment is dropped. -/
def splitKeepEnds : List Char → List Char → List (List Char)
  | [], acc => if acc.isEmpty then [] else [acc.reverse]
  | c :: rest, acc =>
    if c = '\n' then ((c :: acc).reverse) :: splitKeepEnds rest []
    else splitKeepEnds rest (c :: acc)

/-- `textwrap.indent(text, "    ")`: prefix every line that contains a
non-whitespace character. -/
def twIndent (text : List Char) : List Char :=
  (splitKeepEnds text []).flatMap
    (fun l => if l.any (fun c => !isPySpace c) then "    ".data ++ l else l)

/-- `original_body.rstrip("\n")`: drop trailing newline characters only. -/
def rstripNl (l : List Char) : List Char :=
  (l.reverse.dropWhile (fun c => c = '\n')).reverse

/-- The wrapper text injected around one test-function body (source lines
529-541), with the original body re-indented one level under `try:`. -/
def mkWrapper (name indent body escPath : List Char) : List Char :=
  ['\n'] ++ indent ++ "try:\n".data ++ body ++ ['\n']
  ++ indent ++ "except Exception as e:\n".data
  ++ indent ++ "    print(f\"ERROR in ".data ++ name
  ++ ": Dumping DOM for analysis.\")\n".data
  ++ indent ++ "    try:\n".data
  ++ indent ++ "        with open(r'".data ++ escPath
  ++ "', 'w', encoding='utf-8') as f:\n".data
  ++ indent ++ "            f.write(page.content())\n".data
  ++ indent ++ "        print(f\"DOM content successfully dumped to ".data ++ escPath
  ++ "\")\n".data
  ++ indent ++ "    except Exception as dump_error:\n".data
  ++ indent ++ "        print(f\"CRITICAL: Failed to dump DOM: {dump_error}\")\n".data
  ++ indent ++ "    raise e\n".data

/-- One iteration of the wrapping loop: perform the string surgery for the
match whose `header_end` (computed on the original script) is `headerEnd`,
against the current script text. -/
def wrapOne (script : List Char) (name : List Char) (headerEnd : Nat)
    (escPath : List Char) : List Char :=
  let tail := script.drop headerEnd
  match findIndentMatch tail with
  | none => script
  | some (indent, indEnd) =>
    let bodyStart := headerEnd + indEnd
    let remainder := script.drop bodyStart
    let bodyEndOff := bodyEndOffset remainder indent
    let originalBody := remainder.take bodyEndOff
    let indented := twIndent (rstripNl originalBody)
    let wrapper := mkWrapper name indent indented escPath
    script.take bodyStart ++ wrapper ++ remainder.drop bodyEndOff

/-- Embedding of `add_dom_dumping_to_script(script_content, dom_dump_path)`:
find every `def test_*(page):`, then wrap the bodies working backwards
through the matches. -/
def add_dom_dumping_to_script (script_content dom_dump_path : String) : String :=
  let defs := findTestDefs script_content.data
  if defs.isEmpty then script_content
  else
    let esc := escapeDomPath dom_dump_path.data
    String.mk (defs.reverse.foldl
      (fun s nameEnd => wrapOne s nameEnd.1 nameEnd.2 esc) script_content.data)

-- --- REPAIR ADVISOR (get_ai_fix_for_selector, lines 412-471) ---

/-- The value produced by `json.loads` on the brace-delimited slice of the
advisor response: either a JSON object — recorded through the result of its
`"fixed_command"` lookup, the only key the engine reads — or any non-object
value, whose `.get` attribute access raises inside the `try` block. -/
inductive PyVal
  | dict (fixed_command : Option String)
  | nondict
deriving DecidableEq

/-- `str.find(c)`: index of the first occurrence of the character. -/
def pyFind (s : List Char) (c : Char) : Option Nat := findSub [c] s

/-- `str.rfind(c)`: index of the last occurrence of the character. -/
def pyRFind (s : List Char) (c : Char) : Option Nat :=
  (findSub [c] s.reverse).map (fun i => s.length - 1 - i)

/-- Embedding of `get_ai_fix_for_selector(failing_command, user_intent,
dom_content, error_message)`.  The two effectful collaborators are passed
explicitly: `invokeRes` is the outcome of `llm.invoke(prompt).content`
(`none` models any exception or timeout raised during the request), and
`jsonLoads` models `json.loads` (`none` models a parse error).  Every
failure path of the source's `try`/`except` returns `none`. -/
def get_ai_fix_for_selector (failing_command user_intent dom_content error_message : String)
    (invokeRes : Option String) (jsonLoads : String → Option PyVal) : Option PyVal :=
  match invokeRes with
  | none => none
  | some content =>
    match pyFind content.data '{' with
    | none => none
    | some js =>
      match pyRFind content.data '}' with
      | none => none
      | some je =>
        match jsonLoads (String.mk ((content.data.drop js).take (je + 1 - js))) with
        | none => none
        | some (.dict fc) => some (.dict fc)
        | some .nondict => none

-- --- HEALING ORCHESTRATOR (run_script, lines 594-841) ---

/-- One invocation of the test runner: return code and captured output. -/
structure ExecResult where
  returncode : Int
  stdout : String
  stderr : String
deriving DecidableEq

/-- The advisor's parsed reply as consumed by the orchestrator: the result of
`ai_fix.get("fixed_command")` (`none` when the key is absent). -/
structure FixDict where
  fixed_command : Option String
deriving DecidableEq

/-- One successful repair application, as appended to `healing_attempts`. -/
structure HealingAttempt where
  attempt : Nat
  failing_command : String
  fixed_command : String
  user_intent : String
deriving DecidableEq

/-- A record of one invocation of the repair advisor, with the arguments the
orchestrator passed and the script version current at that moment. -/
structure AdvisorCall where
  attempt : Nat
  script : String
  failing_command : String
  user_intent : String
  dom_content : String
  traceback : String
deriving DecidableEq

/-- The external world of one self-healing run: the subprocess outcome for
each attempt index and script text, the state of the DOM-dump file observed
after each attempt (`none` = the file does not exist), the behaviour of
`get_ai_fix_for_selector`, and the state of the JSON report file observed
after the loop. -/
structure HealEnv where
  run : Nat → String → ExecResult
  domFile : Nat → Option String
  aiFix : String → String → String → String → Option FixDict

/-- Python truthiness of `ai_fix.get("fixed_command")`: present and a
non-empty string. -/
def truthyFix (d : FixDict) : Option String :=
  match d.fixed_command with
  | some fc => if fc = "" then none else some fc
  | none => none

/-- What the loop body decides to do after one execution attempt. -/
inductive StepAction
  | success
  | abortMax
  | abortHeal
  | manualRetry
  | healed (script' : String) (rec_ : HealingAttempt)
deriving DecidableEq

/-- Outcome of one loop iteration. -/
structure StepOut where
  exec : ExecResult
  action : StepAction
  advisorCall : Option AdvisorCall
deriving DecidableEq

/-- The decision logic of one iteration of the retry loop of `run_script`
(lines 630-725), for an already-obtained execution result `r`: success stops;
at the retry budget the loop aborts; within the manual-retry budget the same
script is re-run; otherwise the failure is classified, context extracted, the
DOM dump required non-empty, and the advisor consulted; a truthy fix appends
a `HealingAttempt` and patches the script by single textual substitution. -/
def healStepCore (env : HealEnv) (m h attempt : Nat) (script : String)
    (r : ExecResult) : StepOut :=
  if r.returncode = 0 then ⟨r, .success, none⟩
  else if m + h ≤ attempt then ⟨r, .abortMax, none⟩
  else
    let tb := r.stdout ++ r.stderr
    if attempt < m then ⟨r, .manualRetry, none⟩
    else if isRepairableFailure tb then
      match extract_failing_context tb script with
      | (none, _) => ⟨r, .abortHeal, none⟩
      | (some fc, intent) =>
        let dom := (env.domFile attempt).getD ""
        if dom = "" then ⟨r, .abortHeal, none⟩
        else
          let call : AdvisorCall := ⟨attempt, script, fc, intent, dom, tb⟩
          match env.aiFix fc intent dom tb with
          | some d =>
            match truthyFix d with
            | some fc' =>
              ⟨r, .healed (replaceFirstS script fc fc') ⟨attempt + 1, fc, fc', intent⟩,
                some call⟩
            | none => ⟨r, .abortHeal, some call⟩
          | none => ⟨r, .abortHeal, some call⟩
    else ⟨r, .abortHeal, none⟩

/-- One iteration of the retry loop: instrument the current script, write and
execute it, then decide. -/
def healStep (env : HealEnv) (m h attempt : Nat) (script domDumpPath : String) : StepOut :=
  healStepCore env m h attempt script
    (env.run attempt (add_dom_dumping_to_script script domDumpPath))

/-- Aggregate outcome of the whole retry loop. -/
structure LoopOut where
  result : ExecResult
  healing : List HealingAttempt
  advisorCalls : List AdvisorCall
  execCount : Nat
  finalScript : String
deriving DecidableEq

/-- The retry loop `for attempt in range(1 + m + h)` as fuel-indexed
recursion; the fuel starts at `1 + m + h`, so the loop always terminates.
Accumulates the healing-attempt trail, the advisor invocations, and the
number of subprocess executions. -/
def healLoopGo (env : HealEnv) (m h : Nat) (domPath : String) :
    Nat → Nat → String → List HealingAttempt → List AdvisorCall → Nat → ExecResult → LoopOut
  | 0, _, script, acc, calls, cnt, last => ⟨last, acc, calls, cnt, script⟩
  | fuel + 1, attempt, script, acc, calls, cnt, last =>
    let so := healStep env m h attempt script domPath
    match so.action with
    | .success => ⟨so.exec, acc, calls ++ so.advisorCall.toList, cnt + 1, script⟩
    | .abortMax => ⟨so.exec, acc, calls ++ so.advisorCall.toList, cnt + 1, script⟩
    | .abortHeal => ⟨so.exec, acc, calls ++ so.advisorCall.toList, cnt + 1, script⟩
    | .manualRetry =>
      healLoopGo env m h domPath fuel (attempt + 1) script acc
        (calls ++ so.advisorCall.toList) (cnt + 1) so.exec
    | .healed script' ha =>
      healLoopGo env m h domPath fuel (attempt + 1) script' (acc ++ [ha])
        (calls ++ so.advisorCall.toList) (cnt + 1) so.exec

/-- The full retry strategy of a full-flow run: `total_attempts  =
1 + manual_retries + max_healing_retries` iterations at most. -/
def run_healing_loop (env : HealEnv) (m h : Nat) (script domPath : String) : LoopOut :=
  healLoopGo env m h domPath (1 + m + h) 0 script [] [] 0 ⟨0, "", ""⟩

-- --- TEST EXECUTOR REPORTING (run_script lines 726-837, run_standard_test) ---

/-- `re.sub(r"\x1b\[[0-9;]*[mK]", "", s)`: strip ANSI colour sequences by a
leftmost non-overlapping scan; an escape that does not complete a sequence is
kept.  `fuel` bounds the recursion (each step consumes at least one char). -/
def stripAnsiGo : Nat → List Char → List Char
  | 0, s => s
  | fuel + 1, s =>
    match s with
    | [] => []
    | c :: rest =>
      if c = '\x1b' then
        match rest with
        | '[' :: rest2 =>
          let ps := rest2.takeWhile (fun c2 => isDigitCh c2 || c2 = ';')
          match rest2.drop ps.length with
          | 'm' :: rest3 => stripAnsiGo fuel rest3
          | 'K' :: rest3 => stripAnsiGo fuel rest3
          | _ => c :: stripAnsiGo fuel rest
        | _ => c :: stripAnsiGo fuel rest
      else c :: stripAnsiGo fuel rest

/-- Strip ANSI colour sequences from captured stdout. -/
def stripAnsi (l : List Char) : List Char := stripAnsiGo l.length l

/-- Character class `[\w\[\]-]` of the per-test pattern. -/
def isClassCh (c : Char) : Bool := isWordCh c || c = '[' || c = ']' || c = '-'

/-- The pytest outcome keywords of the per-test pattern, in alternation
order. -/
def outcomeKeywords : List String :=
  ["PASSED", "FAILED", "ERROR", "SKIPPED", "XPASS", "XFAIL"]

/-- Try each outcome keyword at the head of `s`. -/
def matchKeyword (s : List Char) : Option (List Char × List Char) :=
  (outcomeKeywords.map String.data).findSome?
    (fun kw => if kw.isPrefixOf s then some (kw, s.drop kw.length) else none)

/-- Anchored match of `(.*?::[\w\[\]-]+)\s+(PASSED|FAILED|ERROR|SKIPPED|
XPASS|XFAIL)` at a line start: the lazy `.*?` tries each `::` occurrence from
the left (never crossing a newline), the identifier run is greedy, `\s+`
(which may span newlines) must be non-empty, then an outcome keyword.
Returns group 1, the keyword, and the rest of the input after the match. -/
def matchPerTestGo (acc : List Char) : List Char → Option (List Char × List Char × List Char)
  | [] => none
  | c :: rest =>
    if c = '\n' then none
    else
      match c, rest with
      | ':', ':' :: rest2 =>
        let runCs := rest2.takeWhile isClassCh
        if runCs.isEmpty then matchPerTestGo (c :: acc) rest
        else
          let afterRun := rest2.drop runCs.length
          let ws := afterRun.takeWhile isPySpace
          if ws.isEmpty then matchPerTestGo (c :: acc) rest
          else
            match matchKeyword (afterRun.drop ws.length) with
            | some (kw, rest3) =>
              some (acc.reverse ++ [':', ':'] ++ runCs, kw, rest3)
            | none => matchPerTestGo (c :: acc) rest
      | _, _ => matchPerTestGo (c :: acc) rest

/-- `finditer` of the per-test pattern with `re.MULTILINE`: attempt the
anchored match at every line start at or after the end of the previous
match. -/
def scanPerTestGo : Nat → List Char → Bool → List (List Char × List Char)
  | 0, _, _ => []
  | fuel + 1, s, atStart =>
    match (if atStart then matchPerTestGo [] s else none) with
    | some (g1, kw, rest3) => (g1, kw) :: scanPerTestGo fuel rest3 false
    | none =>
      match s with
      | [] => []
      | c :: rest => scanPerTestGo fuel rest (c = '\n')

/-- All (group 1, outcome keyword) matches of the per-test pattern. -/
def scanPerTest (s : List Char) : List (List Char × List Char) :=
  scanPerTestGo (s.length + 1) s true

/-- One per-test log entry as returned to the UI (the wall-clock timestamp is
not modelled). -/
structure LogEntry where
  action : String
  result : String
  duration : String
deriving DecidableEq

/-- The pass/fail counters returned to the UI. -/
structure Stats where
  total : Nat
  passed : Nat
  failed : Nat
deriving DecidableEq

/-- The `summary` object of a loaded pytest JSON report; each field is
`none` when the key is absent (`summary.get(key, 0)` then yields 0). -/
structure SummaryVal where
  total : Option Nat
  passed : Option Nat
  failed : Option Nat
  errors : Option Nat
deriving DecidableEq

/-- One entry of the `tests` list of a loaded report.  `durationStr` stands
for the already-formatted `f"{duration:.2f}s"` string (floating-point
formatting itself is not modelled). -/
structure TestVal where
  nodeid : Option String
  outcome : Option String
  durationStr : String
deriving DecidableEq

/-- A loaded `report.json` as far as the engine reads it: the `summary`
object and the `tests` list, each possibly absent. -/
structure ReportVal where
  summary : Option SummaryVal
  tests : Option (List TestVal)
deriving DecidableEq

/-- The synthesized minimal report summary `{"total", "passed", "failed",
"errors"}` fabricated when the report file is missing. -/
structure Summary4 where
  total : Nat
  passed : Nat
  failed : Nat
  errors : Nat
deriving DecidableEq

/-- Parse per-test outcome lines from (ANSI-stripped) stdout into log
entries: nodeid stripped, outcome capitalized, duration `"-"`. -/
def fallbackLogs (stdout : String) : List LogEntry :=
  (scanPerTest (stripAnsi stdout.data)).map
    (fun g1kw => ⟨String.mk (pyStrip g1kw.1), capitalizeS (String.mk g1kw.2), "-"⟩)

/-- Stats recomputed from a list of parsed log entries: `total` its length,
`passed` the number of `"Passed"` results, `failed` the difference. -/
def statsFromLogs (logs : List LogEntry) : Stats :=
  let total := logs.length
  let passed := (logs.filter (fun l => l.result = "Passed")).length
  ⟨total, passed, total - passed⟩

/-- The JSON value a full-flow `run_script` request answers with. -/
inductive RunResponse
  | okNoReport (summary : Summary4) (healing : List HealingAttempt)
      (logs : List LogEntry) (stats : Stats) (final_stdout final_stderr : String)
  | errNoReport (stdout stderr : String) (healing : List HealingAttempt)
  | okReport (report : ReportVal) (healing : List HealingAttempt)
      (final_stdout final_stderr : String)
deriving DecidableEq

/-- The report-file state observed after the final attempt of a run. -/
structure ReportEnv where
  reportExists : Bool
  report : ReportVal

/-- The final reporting of a full-flow `run_script` (lines 726-837): with no
report file, a return code of 0 yields a synthesized 200 response (per-test
fallback parse, else a suite-level dummy derived from the return code), and
any other return code yields the 400 error response; with a report file, the
loaded report is returned as-is (no stats are attached on that path). -/
def finalReport (renv : ReportEnv) (out : LoopOut) : RunResponse :=
  if ¬ renv.reportExists then
    if out.result.returncode = 0 then
      let logs := fallbackLogs out.result.stdout
      if ¬ logs.isEmpty then
        let st := statsFromLogs logs
        .okNoReport ⟨st.total, st.passed, st.failed, 0⟩ out.healing logs st
          out.result.stdout out.result.stderr
      else
        let p : Nat := if out.result.returncode = 0 then 1 else 0
        let f : Nat := if out.result.returncode = 0 then 0 else 1
        let suiteLogs : List LogEntry :=
          [⟨"Test Suite", if f = 0 then "Passed" else "Failed", "0s"⟩]
        .okNoReport ⟨1, p, f, 0⟩ out.healing suiteLogs ⟨1, p, f⟩
          out.result.stdout out.result.stderr
    else .errNoReport out.result.stdout out.result.stderr out.healing
  else .okReport renv.report out.healing out.result.stdout out.result.stderr

/-- A full-flow (self-healing) `run_script` request end to end: retry loop
then final reporting.  Returns the response together with the loop outcome
(the loop outcome is a modelling artefact recording attempt counts and the
audit trails). -/
def run_full_flow (env : HealEnv) (renv : ReportEnv) (m h : Nat)
    (script_content domPath : String) : RunResponse × LoopOut :=
  let out := run_healing_loop env m h script_content domPath
  (finalReport renv out, out)

-- --- STRICT-MODE RUNNER (run_standard_test, lines 988-1175) ---

/-- The external world of one strict-mode run: the subprocess outcome for the
written script and the report-file state afterwards. -/
structure StdEnv where
  run : String → ExecResult
  reportExists : Bool
  report : ReportVal

/-- What `run_standard_test` hands back (a dict in the source).  The
`writtenScript` field is a modelling artefact recording the exact text
written to `test_script.py`; `execCount` records the number of subprocess
invocations. -/
structure StandardResult where
  writtenScript : String
  minimalSummary : Option Summary4
  loadedReport : Option ReportVal
  healing_attempts : List HealingAttempt
  logs : List LogEntry
  stats : Stats
  final_stdout : String
  final_stderr : String
  execCount : Nat
deriving DecidableEq

/-- Embedding of `run_standard_test(script_content)`: write the script
verbatim, run pytest once, then build stats and logs — from the stdout
fallback parse (with a suite-level dummy as last resort) when the report file
is missing, otherwise from the loaded report (with the same stdout fallback
when the report carries no per-test list). -/
def run_standard_test (env : StdEnv) (script_content : String) : StandardResult :=
  let written := script_content
  let r := env.run written
  if ¬ env.reportExists then
    let logs := fallbackLogs r.stdout
    if ¬ logs.isEmpty then
      let st := statsFromLogs logs
      ⟨written, some ⟨st.total, st.passed, st.failed, 0⟩, none, [], logs, st,
        r.stdout, r.stderr, 1⟩
    else
      let p : Nat := if r.returncode = 0 then 1 else 0
      let f : Nat := if r.returncode = 0 then 0 else 1
      let logs2 : List LogEntry :=
        [⟨"Test Suite", if f = 0 then "Passed" else "Failed", "0s"⟩]
      ⟨written, some ⟨1, p, f, 0⟩, none, [], logs2, ⟨1, p, f⟩, r.stdout, r.stderr, 1⟩
  else
    let rep := env.report
    let summary := rep.summary.getD ⟨none, none, none, none⟩
    let stats0 : Stats :=
      ⟨summary.total.getD 0, summary.passed.getD 0,
        summary.failed.getD 0 + summary.errors.getD 0⟩
    let logs0 := (rep.tests.getD []).map
      (fun t => (⟨t.nodeid.getD "test", capitalizeS (t.outcome.getD "unknown"),
        t.durationStr⟩ : LogEntry))
    if ¬ logs0.isEmpty then
      ⟨written, none, some rep, [], logs0, stats0, r.stdout, r.stderr, 1⟩
    else
      let logs1 := fallbackLogs r.stdout
      if ¬ logs1.isEmpty then
        let st := statsFromLogs logs1
        ⟨written, none, some rep, [], logs1, st, r.stdout, r.stderr, 1⟩
      else
        let logs2 : List LogEntry :=
          [⟨"Test Suite", if summary.failed.getD 0 = 0 then "Passed" else "Failed",
            "0s"⟩]
        ⟨written, none, some rep, [], logs2, stats0, r.stdout, r.stderr, 1⟩

-- --- run_script DISPATCH (lines 594-626) ---

/-- The request parameters of `/run_script` after the source's defaulting and
`int()` coercions (the spec's invocation contract makes the retry counts
non-negative integers).  `manual_wait` only feeds `time.sleep` between manual
retries and influences no observable modelled state. -/
structure RequestData where
  script_content : String
  execution_mode : String
  manual_retries : Nat
  max_healing_retries : Nat
  manual_wait : Nat

/-- The response of the `/run_script` endpoint: a strict-mode result, or a
full-flow response. -/
inductive ScriptResponse
  | standard (res : StandardResult)
  | fullFlow (resp : RunResponse)
deriving DecidableEq

/-- Embedding of the `run_script` endpoint dispatch: any execution mode other
than `"full_flow"` runs `run_standard_test` once with no healing; full-flow
mode runs the self-healing engine.  The second component counts subprocess
executions. -/
def run_script (data : RequestData) (henv : HealEnv) (renv : ReportEnv)
    (senv : StdEnv) (domPath : String) : ScriptResponse × Nat :=
  if data.execution_mode ≠ "full_flow" then
    let sr := run_standard_test senv data.script_content
    (.standard sr, sr.execCount)
  else
    let r := run_full_flow henv renv data.manual_retries data.max_healing_retries
      data.script_content domPath
    (.fullFlow r.1, r.2.execCount)

/-- The relation between a healing record and the advisor call it answers:
same failing command and intent, and the advisor returned a fix whose truthy
`fixed_command` is the recorded one. -/
def recordFromCall (env : HealEnv) (ha : HealingAttempt) (c : AdvisorCall) : Prop :=
  ha.failing_command = c.failing_command ∧ ha.user_intent = c.user_intent ∧
  ∃ d, env.aiFix c.failing_command c.user_intent c.dom_content c.traceback = some d ∧
    truthyFix d = some ha.fixed_command

/-- An environment in which every attempt fails with a repairable timeout
whose traceback names a command that does not occur in the script, the DOM
dump exists, and the advisor always proposes a fix. -/
def phantomFixEnv : HealEnv where
  run := fun _ _ =>
    ⟨1, "FAILED\nFile \"/tmp/test_script.py\", line 3, in test_a\n    page.clickX()\nE TimeoutError: boom\n", ""⟩
  domFile := fun n => if n = 0 then some "<html>" else none
  aiFix := fun _ _ _ _ => some ⟨some "page.ok()"⟩

/-- The script run by `phantomFixEnv`; it does not contain the failing
command reported by the traceback. -/
def phantomFixScript : String := "def test_a(page):\n    page.click()\n"

/-- A strict-mode request whose script always fails. -/
def failingStdEnv : StdEnv where
  run := fun _ => ⟨1, "test_script.py::test_a FAILED\n", "boom"⟩
  reportExists := false
  report := ⟨none, none⟩

/-- A request selecting strict mode with non-trivial retry budgets. -/
def strictRequest : RequestData where
  script_content := "def test_a(page):\n    page.click()\n"
  execution_mode := "specific_tests"
  manual_retries := 5
  max_healing_retries := 7
  manual_wait := 3

/-- An inert full-flow environment for instantiating the dispatcher. -/
def inertHealEnv : HealEnv where
  run := fun _ _ => ⟨0, "", ""⟩
  domFile := fun _ => none
  aiFix := fun _ _ _ _ => none

/-- A self-healing environment whose single attempt fails with unrepairable
output that nevertheless contains a parseable per-test result line; no report
file is ever produced. -/
def noReportFailEnv : HealEnv where
  run := fun _ _ => ⟨1, "test_script.py::test_a FAILED\n", ""⟩
  domFile := fun _ => none
  aiFix := fun _ _ _ _ => none

/-- A self-healing environment whose first attempt succeeds with empty
output and which produces no report file. -/
def cleanPassEnv : HealEnv where
  run := fun _ _ => ⟨0, "", ""⟩
  domFile := fun _ => none
  aiFix := fun _ _ _ _ => none

/-- A two-test script whose first test has a two-statement body — exactly the
shape `add_dom_dumping_to_script`'s docstring promises to handle. -/
def twoTestScript : String :=
  "def test_a(page):\n    x()\n    y()\ndef test_b(page):\n    z()\n"

/-- The invariant claimed of the returned stats. -/
def statsOk (st : Stats) : Prop := st.total = st.passed + st.failed

/-- A report summary is self-consistent when its total equals passed plus
failed plus errors. -/
def summaryConsistent (rep : ReportVal) : Prop :=
  (rep.summary.getD ⟨none, none, none, none⟩).total.getD 0 =
    (rep.summary.getD ⟨none, none, none, none⟩).passed.getD 0 +
    (rep.summary.getD ⟨none, none, none, none⟩).failed.getD 0 +
    (rep.summary.getD ⟨none, none, none, none⟩).errors.getD 0

/-- A strict-mode environment whose report file exists and carries a summary
with one skipped test: two collected, one passed, none failed or errored. -/
def skewedReportEnv : StdEnv where
  run := fun _ => ⟨0, "", ""⟩
  reportExists := true
  report := ⟨some ⟨some 2, some 1, some 0, some 0⟩,
    some [⟨some "test_script.py::test_a", some "passed", "0.10s"⟩]⟩

/-- A sample pytest traceback naming a failing `page.` command. -/
def sampleTraceback : String :=
  "boom\nFile \"/tmp/test_script.py\", line 3, in test_a\n    page.clickX()\nTimeoutError: x"

/-- A sample script containing the failing command under an intent comment. -/
def sampleScript : String :=
  "def test_a(page):\n    # Click the thing\n    page.clickX()\n"

/-- A JSON parser stand-in that always fails. -/
def alwaysFailParse : String → Option PyVal := fun _ => none

-- --- THEOREMS ---

/-- `findPage` consumes at least one line. -/
theorem findPage_length_lt :
    ∀ (ls : List (List Char)) cap rest', findPage ls = some (cap, rest') →
      rest'.length < ls.length := by
  intro ls
  induction ls with
  | nil => intro cap rest' h; simp [findPage] at h
  | cons l rest ih =>
    intro cap rest' h
    simp only [findPage] at h
    split at h
    · have := ih cap rest' h
      simp only [List.length_cons]
      omega
    · split at h
      · simp only [Option.some.injEq, Prod.mk.injEq] at h
        simp [← h.2]
      · exact absurd h (by simp)

/-- Each level of the retry loop adds at most one execution per unit of
fuel. -/
theorem healLoopGo_execCount_le (env : HealEnv) (m h : Nat) (p : String) :
    ∀ fuel attempt script acc calls cnt last,
      (healLoopGo env m h p fuel attempt script acc calls cnt last).execCount ≤ cnt + fuel := by
  intro fuel
  induction fuel with
  | zero => intro attempt script acc calls cnt last; simp [healLoopGo]
  | succ n ih =>
    intro attempt script acc calls cnt last
    rw [healLoopGo]
    split
    · simp
    · simp
    · simp
    · exact le_trans (ih _ _ _ _ _ _) (by omega)
    · exact le_trans (ih _ _ _ _ _ _) (by omega)

/-- C1: a self-healing (full-flow) run of `run_script` invokes the
test-runner subprocess at most `1 + manual_retries + max_healing_retries`
times, for every configuration and every behaviour of the subprocess, the
DOM-dump file and the repair advisor; the retry loop is total (fuelled by
exactly this bound), so it always terminates. -/
theorem run_full_flow_attempts_bounded (env : HealEnv) (renv : ReportEnv)
    (m h : Nat) (script_content domPath : String) :
    (run_full_flow env renv m h script_content domPath).2.execCount ≤ 1 + m + h := by
  have := healLoopGo_execCount_le env m h domPath (1 + m + h) 0 script_content [] [] 0 ⟨0, "", ""⟩
  simpa [run_full_flow, run_healing_loop] using this

/-- Whenever one loop iteration consults the repair advisor, the recorded
call shows a failing, repairable attempt with successfully extracted context
and a non-empty DOM dump read from an existing file. -/
theorem healStepCore_call_spec (env : HealEnv) (m h a : Nat) (script : String)
    (r : ExecResult) (c : AdvisorCall)
    (hc : (healStepCore env m h a script r).advisorCall = some c) :
    c.attempt = a ∧ c.script = script ∧ c.traceback = r.stdout ++ r.stderr ∧
    r.returncode ≠ 0 ∧ m ≤ a ∧ a < m + h ∧
    isRepairableFailure c.traceback = true ∧
    (extract_failing_context c.traceback c.script).1 = some c.failing_command ∧
    (extract_failing_context c.traceback c.script).2 = c.user_intent ∧
    env.domFile c.attempt = some c.dom_content ∧ c.dom_content ≠ "" := by
  simp only [healStepCore] at hc
  split at hc
  · simp at hc
  · split at hc
    · simp at hc
    · rename_i hrc hmax
      split at hc
      · simp at hc
      · split at hc
        · rename_i hrep
          split at hc
          · simp at hc
          · rename_i fc intent hext
            split at hc
            · simp at hc
            · rename_i hdom
              cases hdf : env.domFile a with
              | none => simp [hdf] at hdom
              | some dom =>
                have hfin : c = ⟨a, script, fc, intent, (env.domFile a).getD "", r.stdout ++ r.stderr⟩ := by
                  split at hc
                  · split at hc
                    · exact (Option.some.injEq _ _ ▸ hc).symm
                    · exact (Option.some.injEq _ _ ▸ hc).symm
                  · exact (Option.some.injEq _ _ ▸ hc).symm
                subst hfin
                refine ⟨rfl, rfl, rfl, hrc, by omega, by omega, hrep, ?_, ?_, ?_, ?_⟩
                · simp [hext]
                · simp [hext]
                · simp [hdf]
                · simpa [hdf] using hdom
        · simp at hc

/-- Advisor-call records accumulated by the retry loop all satisfy any
property established for single iterations. -/
theorem healLoopGo_calls_spec (env : HealEnv) (m h : Nat) (p : String)
    (P : AdvisorCall → Prop)
    (hstep : ∀ a script c, (healStep env m h a script p).advisorCall = some c → P c) :
    ∀ fuel attempt script acc calls cnt last,
      (∀ c ∈ calls, P c) →
      ∀ c ∈ (healLoopGo env m h p fuel attempt script acc calls cnt last).advisorCalls, P c := by
  intro fuel
  induction fuel with
  | zero =>
    intro attempt script acc calls cnt last hcalls c hmem
    simpa [healLoopGo] using hcalls c hmem
  | succ n ih =>
    intro attempt script acc calls cnt last hcalls c hmem
    have hext : ∀ c ∈ calls ++ (healStep env m h attempt script p).advisorCall.toList, P c := by
      intro c' hc'
      rcases List.mem_append.mp hc' with hl | hr
      · exact hcalls c' hl
      · cases hav : (healStep env m h attempt script p).advisorCall with
        | none => simp [hav] at hr
        | some cv =>
          have : c' = cv := by simpa [hav] using hr
          exact this ▸ hstep attempt script cv hav
    rw [healLoopGo] at hmem
    revert hmem
    split
    · intro hmem; exact hext c (by simpa using hmem)
    · intro hmem; exact hext c (by simpa using hmem)
    · intro hmem; exact hext c (by simpa using hmem)
    · intro hmem; exact ih _ _ _ _ _ _ hext c hmem
    · intro hmem; exact ih _ _ _ _ _ _ hext c hmem

/-- C3: in every self-healing run, the repair advisor is consulted only on a
failing attempt past the manual-retry budget and within the total budget
whose combined output matches a repairable signature, whose traceback yields
an extracted failing command, and whose DOM-dump file exists with non-empty
content (first conjunct, over the whole loop); and whenever one of those
healing preconditions fails on a failing attempt past the manual budget, the
iteration ends the loop (abort) without consulting the advisor (second
conjunct, at the level of a single iteration with an arbitrary execution
result). -/
theorem advisor_called_only_when_repairable_context_dom :
    (∀ (env : HealEnv) (m h : Nat) (script domPath : String),
      ∀ c ∈ (run_healing_loop env m h script domPath).advisorCalls,
        isRepairableFailure c.traceback = true ∧
        (extract_failing_context c.traceback c.script).1 = some c.failing_command ∧
        env.domFile c.attempt = some c.dom_content ∧ c.dom_content ≠ "")
    ∧ (∀ (env : HealEnv) (m h a : Nat) (script : String) (r : ExecResult),
        r.returncode ≠ 0 → m ≤ a →
        (isRepairableFailure (r.stdout ++ r.stderr) = false ∨
         (extract_failing_context (r.stdout ++ r.stderr) script).1 = none ∨
         ((env.domFile a).getD "") = "") →
        (healStepCore env m h a script r).advisorCall = none ∧
        ((healStepCore env m h a script r).action = StepAction.abortMax ∨
         (healStepCore env m h a script r).action = StepAction.abortHeal)) := by
  constructor
  · intro env m h script domPath c hmem
    have := healLoopGo_calls_spec env m h domPath
      (fun c => isRepairableFailure c.traceback = true ∧
        (extract_failing_context c.traceback c.script).1 = some c.failing_command ∧
        env.domFile c.attempt = some c.dom_content ∧ c.dom_content ≠ "")
      (fun a script' c' hc' => by
        have hs := healStepCore_call_spec env m h a script'
          (env.run a (add_dom_dumping_to_script script' domPath)) c' hc'
        exact ⟨hs.2.2.2.2.2.2.1, hs.2.2.2.2.2.2.2.1, hs.2.2.2.2.2.2.2.2.2.1,
          hs.2.2.2.2.2.2.2.2.2.2⟩)
      (1 + m + h) 0 script [] [] 0 ⟨0, "", ""⟩ (by simp)
    exact this c hmem
  · intro env m h a script r hrc hma hbad
    simp only [healStepCore] at *
    rw [if_neg hrc]
    by_cases hab : m + h ≤ a
    · rw [if_pos hab]; exact ⟨rfl, Or.inl rfl⟩
    · rw [if_neg hab, if_neg (by omega : ¬ a < m)]
      rcases hbad with hb | hb | hb
      · rw [if_neg (by simp [hb])]
        exact ⟨rfl, Or.inr rfl⟩
      · by_cases hrep : isRepairableFailure (r.stdout ++ r.stderr) = true
        · rw [if_pos hrep]
          rcases hx : extract_failing_context (r.stdout ++ r.stderr) script with ⟨fcq, intent⟩
          cases fcq with
          | none => simp [hx]
          | some fc => rw [hx] at hb; simp at hb
        · rw [if_neg hrep]; exact ⟨rfl, Or.inr rfl⟩
      · by_cases hrep : isRepairableFailure (r.stdout ++ r.stderr) = true
        · rw [if_pos hrep]
          rcases hx : extract_failing_context (r.stdout ++ r.stderr) script with ⟨fcq, intent⟩
          cases fcq with
          | none => simp [hx]
          | some fc => simp [hx, hb]
        · rw [if_neg hrep]; exact ⟨rfl, Or.inr rfl⟩

/-- A loop iteration patches the script exactly when it recorded a healing
attempt, and then the advisor call, the recorded fields, and the patched
script are related as the source relates them: the record copies the
extracted command and intent, its attempt number is the 1-based attempt
index, and the new script is the single-substitution patch (which leaves the
script unchanged when the failing command does not occur in it). -/
theorem healStepCore_healed_spec (env : HealEnv) (m h a : Nat) (script : String)
    (r : ExecResult) (s' : String) (ha : HealingAttempt)
    (hact : (healStepCore env m h a script r).action = StepAction.healed s' ha) :
    (healStepCore env m h a script r).advisorCall =
      some ⟨a, script, ha.failing_command, ha.user_intent,
        ((env.domFile a).getD ""), r.stdout ++ r.stderr⟩ ∧
    ha.attempt = a + 1 ∧
    s' = replaceFirstS script ha.failing_command ha.fixed_command ∧
    (∃ d, env.aiFix ha.failing_command ha.user_intent ((env.domFile a).getD "")
        (r.stdout ++ r.stderr) = some d ∧ truthyFix d = some ha.fixed_command) := by
  simp only [healStepCore] at hact ⊢
  split at hact
  · simp at hact
  · split at hact
    · simp at hact
    · split at hact
      · simp at hact
      · split at hact
        · rename_i hrep
          split at hact
          · simp at hact
          · rename_i fc intent hext
            split at hact
            · simp at hact
            · rename_i hdom
              split at hact
              · rename_i d hfix
                split at hact
                · rename_i fc' htr
                  simp only [StepAction.healed.injEq] at hact
                  obtain ⟨hs', hha⟩ := hact
                  subst hha
                  refine ⟨?_, rfl, hs'.symm, ⟨d, hfix, htr⟩⟩
                  simp [hext, hrep, hdom, hfix, htr,
                    if_neg (by assumption : ¬ (r.returncode = 0)),
                    if_neg (by assumption : ¬ m + h ≤ a),
                    if_neg (by assumption : ¬ a < m)]
                · simp at hact
              · simp at hact
        · simp at hact

/-- Conversely, when the advisor call of an iteration returned a fix with a
truthy `fixed_command`, the iteration records a healing attempt. -/
theorem healStepCore_truthy_healed (env : HealEnv) (m h a : Nat) (script : String)
    (r : ExecResult) (c : AdvisorCall) (d : FixDict) (fc' : String)
    (hc : (healStepCore env m h a script r).advisorCall = some c)
    (hfix : env.aiFix c.failing_command c.user_intent c.dom_content c.traceback = some d)
    (htr : truthyFix d = some fc') :
    ∃ s' ha, (healStepCore env m h a script r).action = StepAction.healed s' ha := by
  obtain ⟨hat, hscr, htb, hrc, hm, hmh, hrep, hex1, hex2, hdf, hdne⟩ :=
    healStepCore_call_spec env m h a script r c hc
  rw [htb] at hrep hfix
  rw [hscr] at hex1 hex2
  rw [htb] at hex1 hex2
  rw [hat] at hdf
  have hdget : (env.domFile a).getD "" = c.dom_content := by rw [hdf]; rfl
  have hext : extract_failing_context (r.stdout ++ r.stderr) script =
      (some c.failing_command, c.user_intent) := by
    rcases hx : extract_failing_context (r.stdout ++ r.stderr) script with ⟨x1, x2⟩
    rw [hx] at hex1 hex2
    simp only at hex1 hex2
    rw [hex1, hex2]
  simp only [healStepCore]
  rw [if_neg hrc, if_neg (by omega : ¬ m + h ≤ a), if_neg (by omega : ¬ a < m),
    if_pos hrep, hext]
  simp only [hdget]
  rw [if_neg hdne, hfix]
  simp only [htr]
  exact ⟨_, _, rfl⟩

/-- Every healing record accumulated by the retry loop stems from an advisor
call that returned a truthy fix. -/
theorem healLoopGo_healing_spec (env : HealEnv) (m h : Nat) (p : String) :
    ∀ fuel attempt script acc calls cnt last,
      (∀ ha ∈ acc, ∃ c ∈ calls, recordFromCall env ha c) →
      ∀ ha ∈ (healLoopGo env m h p fuel attempt script acc calls cnt last).healing,
        ∃ c ∈ (healLoopGo env m h p fuel attempt script acc calls cnt last).advisorCalls,
          recordFromCall env ha c := by
  intro fuel
  induction fuel with
  | zero =>
    intro attempt script acc calls cnt last hacc ha hmem
    simp only [healLoopGo] at hmem ⊢
    obtain ⟨c, hcmem, hr⟩ := hacc ha hmem
    exact ⟨c, hcmem, hr⟩
  | succ n ih =>
    intro attempt script acc calls cnt last hacc ha hmem
    rw [healLoopGo] at hmem ⊢
    revert hmem
    split
    · intro hmem
      obtain ⟨c, hcmem, hr⟩ := hacc ha (by simpa using hmem)
      exact ⟨c, List.mem_append_left _ hcmem, hr⟩
    · intro hmem
      obtain ⟨c, hcmem, hr⟩ := hacc ha (by simpa using hmem)
      exact ⟨c, List.mem_append_left _ hcmem, hr⟩
    · intro hmem
      obtain ⟨c, hcmem, hr⟩ := hacc ha (by simpa using hmem)
      exact ⟨c, List.mem_append_left _ hcmem, hr⟩
    · intro hmem
      refine ih _ _ _ _ _ _ ?_ ha hmem
      intro ha' hmem'
      obtain ⟨c, hcmem, hr⟩ := hacc ha' hmem'
      exact ⟨c, List.mem_append_left _ hcmem, hr⟩
    · rename_i script' ha0 hso
      intro hmem
      refine ih _ _ _ _ _ _ ?_ ha hmem
      intro ha' hmem'
      rcases List.mem_append.mp hmem' with hl | hnew
      · obtain ⟨c, hcmem, hr⟩ := hacc ha' hl
        exact ⟨c, List.mem_append_left _ hcmem, hr⟩
      · have hha : ha' = ha0 := by simpa using hnew
        subst hha
        rw [healStep] at hso
        obtain ⟨hcall, _, _, d, hfix, htr⟩ :=
          healStepCore_healed_spec env m h attempt script
            (env.run attempt (add_dom_dumping_to_script script p)) script' ha' hso
        refine ⟨⟨attempt, script, ha'.failing_command, ha'.user_intent,
          ((env.domFile attempt).getD ""),
          (env.run attempt (add_dom_dumping_to_script script p)).stdout ++
            (env.run attempt (add_dom_dumping_to_script script p)).stderr⟩,
          List.mem_append_right _ ?_, rfl, rfl, d, hfix, htr⟩
        simp [healStep, hcall]

/-- C4 (amended): a `HealingAttempt` is recorded by an iteration if and only
if the advisor was consulted and returned a fix with a non-empty
`fixed_command`; the script is then patched by replacing the first occurrence
of the failing command when present (a no-op when the failing command does
not occur in the current script text); and over a whole run every entry of
`healing_attempts` stems from such a truthy advisor reply. -/
theorem healing_record_iff_truthy_fix :
    (∀ (env : HealEnv) (m h a : Nat) (script : String) (r : ExecResult),
      (∃ s' ha, (healStepCore env m h a script r).action = StepAction.healed s' ha) ↔
      (∃ c d fc', (healStepCore env m h a script r).advisorCall = some c ∧
        env.aiFix c.failing_command c.user_intent c.dom_content c.traceback = some d ∧
        truthyFix d = some fc'))
    ∧ (∀ (env : HealEnv) (m h a : Nat) (script : String) (r : ExecResult) s' ha,
        (healStepCore env m h a script r).action = StepAction.healed s' ha →
        s' = replaceFirstS script ha.failing_command ha.fixed_command)
    ∧ (∀ (env : HealEnv) (m h : Nat) (script domPath : String),
        ∀ ha ∈ (run_healing_loop env m h script domPath).healing,
          ∃ c ∈ (run_healing_loop env m h script domPath).advisorCalls,
            recordFromCall env ha c) := by
  refine ⟨?_, ?_, ?_⟩
  · intro env m h a script r
    constructor
    · rintro ⟨s', ha, hact⟩
      obtain ⟨hcall, _, _, d, hfix, htr⟩ := healStepCore_healed_spec env m h a script r s' ha hact
      exact ⟨_, d, ha.fixed_command, hcall, hfix, htr⟩
    · rintro ⟨c, d, fc', hcall, hfix, htr⟩
      exact healStepCore_truthy_healed env m h a script r c d fc' hcall hfix htr
  · intro env m h a script r s' ha hact
    exact (healStepCore_healed_spec env m h a script r s' ha hact).2.2.1
  · intro env m h script domPath ha hmem
    exact healLoopGo_healing_spec env m h domPath (1 + m + h) 0 script [] [] 0
      ⟨0, "", ""⟩ (by simp) ha hmem

/-- C4 (counterexample): with `manual_retries = 0`, `max_healing_retries = 1`
and `phantomFixEnv`, the run records one `HealingAttempt` although its
failing command does not occur anywhere in the script, so nothing was found
or replaced (the final script is unchanged) — refuting the claim that a
record is appended only if the failing command was actually found in the
script text and replaced. -/
theorem healing_record_without_replacement_cex :
    (run_healing_loop phantomFixEnv 0 1 phantomFixScript "D").healing =
      [⟨1, "page.clickX()", "page.ok()", "Perform the action: page.clickX()"⟩]
    ∧ (run_healing_loop phantomFixEnv 0 1 phantomFixScript "D").finalScript =
        phantomFixScript
    ∧ containsSub "page.clickX()".data phantomFixScript.data = false := by
  refine ⟨by decide, by decide, by decide⟩

/-- Witness for the amended C4 theorem at a concrete iteration of
`phantomFixEnv`: the iteration records a healing attempt, and the patch is
the (here vacuous) first-occurrence substitution. -/
theorem healing_record_iff_truthy_fix_witness :
    phantomFixScript =
      replaceFirstS phantomFixScript "page.clickX()" "page.ok()" :=
  healing_record_iff_truthy_fix.2.1 phantomFixEnv 0 1 0 phantomFixScript
    (phantomFixEnv.run 0 (add_dom_dumping_to_script phantomFixScript "D"))
    phantomFixScript
    ⟨1, "page.clickX()", "page.ok()", "Perform the action: page.clickX()"⟩
    (by decide)

/-- Structural facts of the strict runner that hold on every path: the script
is written verbatim, pytest is invoked exactly once, and the
`healing_attempts` list is empty. -/
theorem run_standard_test_invariants (env : StdEnv) (s : String) :
    (run_standard_test env s).writtenScript = s ∧
    (run_standard_test env s).execCount = 1 ∧
    (run_standard_test env s).healing_attempts = [] := by
  simp only [run_standard_test]
  split
  · split
    · exact ⟨rfl, rfl, rfl⟩
    · exact ⟨rfl, rfl, rfl⟩
  · split
    · exact ⟨rfl, rfl, rfl⟩
    · split
      · exact ⟨rfl, rfl, rfl⟩
      · exact ⟨rfl, rfl, rfl⟩

/-- C2: for every script and all values of `manual_retries`,
`max_healing_retries` and `manual_wait`, a `run_script` request whose
execution mode is not `"full_flow"` is answered by `run_standard_test`, which
invokes the test-runner subprocess exactly once and returns an empty
`healing_attempts` list — for every subprocess behaviour, including failing
runs. -/
theorem strict_mode_single_attempt_no_healing (data : RequestData)
    (henv : HealEnv) (renv : ReportEnv) (senv : StdEnv) (domPath : String)
    (hmode : data.execution_mode ≠ "full_flow") :
    (run_script data henv renv senv domPath).1 =
      ScriptResponse.standard (run_standard_test senv data.script_content) ∧
    (run_script data henv renv senv domPath).2 = 1 ∧
    (run_standard_test senv data.script_content).healing_attempts = [] := by
  obtain ⟨_, hcnt, hheal⟩ := run_standard_test_invariants senv data.script_content
  refine ⟨?_, ?_, hheal⟩
  · simp [run_script, hmode]
  · simpa [run_script, hmode] using hcnt

/-- Witness for C2: a concrete strict-mode request with a failing script and
generous retry budgets still runs exactly once with no healing trail. -/
theorem strict_mode_single_attempt_no_healing_witness :
    (run_script strictRequest inertHealEnv ⟨false, ⟨none, none⟩⟩ failingStdEnv "D").2 = 1 ∧
    (run_standard_test failingStdEnv strictRequest.script_content).healing_attempts = [] :=
  ⟨(strict_mode_single_attempt_no_healing strictRequest inertHealEnv ⟨false, ⟨none, none⟩⟩
      failingStdEnv "D" (by decide)).2.1,
   (strict_mode_single_attempt_no_healing strictRequest inertHealEnv ⟨false, ⟨none, none⟩⟩
      failingStdEnv "D" (by decide)).2.2⟩

/-- C10: in strict mode the text written to `test_script.py` and executed is
byte-for-byte the caller-supplied `script_content`: `run_standard_test`
never calls `add_dom_dumping_to_script` (the written text equals the input
even for scripts the instrumentor would transform), so the executed script
contains no DOM-dumping wrapper and no dump is produced on failure. -/
theorem strict_mode_script_written_verbatim (data : RequestData)
    (henv : HealEnv) (renv : ReportEnv) (senv : StdEnv) (domPath : String)
    (hmode : data.execution_mode ≠ "full_flow") :
    (run_script data henv renv senv domPath).1 =
      ScriptResponse.standard (run_standard_test senv data.script_content) ∧
    (run_standard_test senv data.script_content).writtenScript = data.script_content := by
  obtain ⟨hw, _, _⟩ := run_standard_test_invariants senv data.script_content
  refine ⟨?_, hw⟩
  simp [run_script, hmode]

/-- Witness for C10: for a failing strict run of a script the instrumentor
would rewrite, the written text is still the verbatim input (in particular it
differs from the instrumented text). -/
theorem strict_mode_script_written_verbatim_witness :
    (run_standard_test failingStdEnv strictRequest.script_content).writtenScript =
      strictRequest.script_content ∧
    add_dom_dumping_to_script strictRequest.script_content "D" ≠
      strictRequest.script_content :=
  ⟨(strict_mode_script_written_verbatim strictRequest inertHealEnv ⟨false, ⟨none, none⟩⟩
      failingStdEnv "D" (by decide)).2,
   by decide⟩

/-- C5 (counterexample): in a full-flow run whose final attempt exits
non-zero and leaves no report file, the endpoint answers with the hard
400 error response even though fallback parsing of the textual output yields
a per-test result — refuting the claim that such a run still returns a
normal result. -/
theorem missing_report_failing_rc_hard_error_cex :
    (run_full_flow noReportFailEnv ⟨false, ⟨none, none⟩⟩ 0 0 "x = 1\n" "D").1 =
      RunResponse.errNoReport "test_script.py::test_a FAILED\n" "" []
    ∧ fallbackLogs "test_script.py::test_a FAILED\n" =
        [⟨"test_script.py::test_a", "Failed", "-"⟩] := by
  refine ⟨by decide, by decide⟩

/-- C5 (amended): for a full-flow run with no report file, when the final
attempt's return code is 0 the endpoint still answers normally — with stats
and logs from the textual fallback parse when it yields at least one result,
and otherwise with a single synthesized suite-level result derived from the
(zero) return code; when the final return code is non-zero, the endpoint
answers with the hard 400 error response, regardless of what the fallback
parse would yield. -/
theorem missing_report_fallback_spec (env : HealEnv) (renv : ReportEnv)
    (m h : Nat) (script_content domPath : String)
    (hnr : renv.reportExists = false) :
    ((run_full_flow env renv m h script_content domPath).2.result.returncode = 0 →
      (fallbackLogs (run_full_flow env renv m h script_content domPath).2.result.stdout ≠ [] →
        (run_full_flow env renv m h script_content domPath).1 =
          RunResponse.okNoReport
            ⟨(statsFromLogs (fallbackLogs (run_full_flow env renv m h script_content domPath).2.result.stdout)).total,
             (statsFromLogs (fallbackLogs (run_full_flow env renv m h script_content domPath).2.result.stdout)).passed,
             (statsFromLogs (fallbackLogs (run_full_flow env renv m h script_content domPath).2.result.stdout)).failed, 0⟩
            (run_full_flow env renv m h script_content domPath).2.healing
            (fallbackLogs (run_full_flow env renv m h script_content domPath).2.result.stdout)
            (statsFromLogs (fallbackLogs (run_full_flow env renv m h script_content domPath).2.result.stdout))
            (run_full_flow env renv m h script_content domPath).2.result.stdout
            (run_full_flow env renv m h script_content domPath).2.result.stderr)
      ∧ (fallbackLogs (run_full_flow env renv m h script_content domPath).2.result.stdout = [] →
        (run_full_flow env renv m h script_content domPath).1 =
          RunResponse.okNoReport ⟨1, 1, 0, 0⟩
            (run_full_flow env renv m h script_content domPath).2.healing
            [⟨"Test Suite", "Passed", "0s"⟩] ⟨1, 1, 0⟩
            (run_full_flow env renv m h script_content domPath).2.result.stdout
            (run_full_flow env renv m h script_content domPath).2.result.stderr))
    ∧ ((run_full_flow env renv m h script_content domPath).2.result.returncode ≠ 0 →
      (run_full_flow env renv m h script_content domPath).1 =
        RunResponse.errNoReport
          (run_full_flow env renv m h script_content domPath).2.result.stdout
          (run_full_flow env renv m h script_content domPath).2.result.stderr
          (run_full_flow env renv m h script_content domPath).2.healing) := by
  simp only [run_full_flow]
  constructor
  · intro hrc
    constructor
    · intro hlogs
      simp only [finalReport, hnr, Bool.false_eq_true, not_false_eq_true, if_true,
        if_pos hrc]
      rw [if_pos (show ¬ (fallbackLogs
        (run_healing_loop env m h script_content domPath).result.stdout).isEmpty = true by
          simpa using hlogs)]
    · intro hlogs
      simp only [finalReport, hnr, Bool.false_eq_true, not_false_eq_true, if_true,
        if_pos hrc]
      rw [if_neg (show ¬ ¬ (fallbackLogs
        (run_healing_loop env m h script_content domPath).result.stdout).isEmpty = true by
          simp [hlogs])]
  · intro hrc
    simp only [finalReport, hnr, Bool.false_eq_true, not_false_eq_true, if_true,
      if_neg hrc]

/-- Witness for the amended C5 theorem: a passing run with no report file
and unparseable (empty) stdout is answered with the synthesized suite-level
result derived from the zero return code. -/
theorem missing_report_fallback_spec_witness :
    (run_full_flow cleanPassEnv ⟨false, ⟨none, none⟩⟩ 0 0 "x" "D").1 =
      RunResponse.okNoReport ⟨1, 1, 0, 0⟩
        (run_full_flow cleanPassEnv ⟨false, ⟨none, none⟩⟩ 0 0 "x" "D").2.healing
        [⟨"Test Suite", "Passed", "0s"⟩] ⟨1, 1, 0⟩
        (run_full_flow cleanPassEnv ⟨false, ⟨none, none⟩⟩ 0 0 "x" "D").2.result.stdout
        (run_full_flow cleanPassEnv ⟨false, ⟨none, none⟩⟩ 0 0 "x" "D").2.result.stderr :=
  ((missing_report_fallback_spec cleanPassEnv ⟨false, ⟨none, none⟩⟩ 0 0 "x" "D" rfl).1
    (by decide)).2 (by decide)

/-- C6 (code bug): on a script with two test functions the instrumentor does
not wrap the bodies.  The body-end scan (source lines 513-522) never counts
the first body line's length, and the body slice starts after the original
indentation, so for `test_a` the emitted `try:` block contains only the
dedented first statement at the same indentation as `try:` itself (an
`IndentationError`), while the second body statement `y()` is emitted at
column 0 outside any function; it is never placed under the `try:` at the
re-indented depth.  This contradicts the function's own docstring ("Works
with *multiple* test functions and preserves original indentation,
preventing the IndentationError") and the spec's contract. -/
theorem add_dom_dumping_corrupts_multi_test_script :
    (splitLines (add_dom_dumping_to_script twoTestScript "D")).contains "y()" = true
    ∧ (splitLines (add_dom_dumping_to_script twoTestScript "D")).contains "        y()" = false
    ∧ (splitLines (add_dom_dumping_to_script twoTestScript "D")).contains "    try:" = true
    ∧ (splitLines (add_dom_dumping_to_script twoTestScript "D")).contains "    x()" = true
    ∧ (splitLines (add_dom_dumping_to_script twoTestScript "D")).contains "        x()" = false := by
  refine ⟨by decide, by decide, by decide, by decide, by decide⟩

/-- Stats recomputed from parsed logs always satisfy the invariant. -/
theorem statsFromLogs_ok (logs : List LogEntry) : statsOk (statsFromLogs logs) := by
  unfold statsOk statsFromLogs
  simp only
  have := List.length_filter_le (fun l => decide (l.result = "Passed")) logs
  omega

/-- C9 (amended): stats the engine computes itself always satisfy
`total = passed + failed` — in the strict runner whenever the report file is
missing (fallback parse or synthesized suite-level result), and in every
synthesized full-flow response; stats copied from a structured report's
summary satisfy the invariant whenever the summary itself is self-consistent
(`total = passed + failed + errors`), and only then.  (The full-flow
structured-report response carries no stats at all.) -/
theorem stats_total_eq_passed_plus_failed_spec :
    (∀ (senv : StdEnv) (s : String), senv.reportExists = false →
      statsOk (run_standard_test senv s).stats)
    ∧ (∀ (senv : StdEnv) (s : String), summaryConsistent senv.report →
      statsOk (run_standard_test senv s).stats)
    ∧ (∀ (env : HealEnv) (renv : ReportEnv) (m h : Nat) (sc p : String)
        (sum : Summary4) (healing : List HealingAttempt) (logs : List LogEntry)
        (st : Stats) (so se : String),
        (run_full_flow env renv m h sc p).1 =
          RunResponse.okNoReport sum healing logs st so se → statsOk st) := by
  refine ⟨?_, ?_, ?_⟩
  · intro senv s hnr
    simp only [run_standard_test, hnr, Bool.false_eq_true, not_false_eq_true, if_true]
    split
    · exact statsFromLogs_ok _
    · split <;> simp [statsOk]
  · intro senv s hcons
    simp only [run_standard_test]
    split
    · split
      · exact statsFromLogs_ok _
      · split <;> simp [statsOk]
    · split
      · unfold statsOk summaryConsistent at *
        simp only
        omega
      · split
        · exact statsFromLogs_ok _
        · unfold statsOk summaryConsistent at *
          simp only
          omega
  · intro env renv m h sc p sum healing logs st so se hresp
    simp only [run_full_flow, finalReport] at hresp
    split at hresp
    · split at hresp
      · split at hresp
        · simp only [RunResponse.okNoReport.injEq] at hresp
          obtain ⟨_, _, _, hst, _, _⟩ := hresp
          exact hst ▸ statsFromLogs_ok _
        · simp only [RunResponse.okNoReport.injEq] at hresp
          obtain ⟨_, _, _, hst, _, _⟩ := hresp
          subst hst
          simp [statsOk]
      · cases hresp
    · cases hresp

/-- C9 (counterexample): when the structured report's summary counts a test
that neither passed nor failed (e.g. a skipped test), the stats copied from
the summary violate `total = passed + failed`: the strict runner returns
`total = 2, passed = 1, failed = 0` — refuting the claim that every returned
result satisfies the invariant. -/
theorem report_stats_total_mismatch_cex :
    (run_standard_test skewedReportEnv "s").stats = ⟨2, 1, 0⟩
    ∧ ¬ ((run_standard_test skewedReportEnv "s").stats.total =
        (run_standard_test skewedReportEnv "s").stats.passed +
        (run_standard_test skewedReportEnv "s").stats.failed) := by
  refine ⟨by decide, by decide⟩

/-- Witness for the amended C9 theorem: with no report file the strict
runner's synthesized stats satisfy the invariant. -/
theorem stats_total_eq_passed_plus_failed_spec_witness :
    statsOk (run_standard_test failingStdEnv "x = 1\n").stats :=
  stats_total_eq_passed_plus_failed_spec.1 failingStdEnv "x = 1\n" rfl

/-- The outer scan of `extract_failing_context` (first line whose stripped
text equals the failing command) is the `findIdx?`/`take` of the line list. -/
theorem linesBefore_eq (fc : List Char) : ∀ sl : List (List Char),
    linesBefore sl fc =
      (sl.findIdx? (fun l => decide (pyStrip l = fc))).map (sl.take ·) := by
  intro sl
  induction sl with
  | nil => simp [linesBefore]
  | cons l rest ih =>
    simp only [linesBefore, List.findIdx?_cons, List.findIdx?_succ]
    by_cases hl : pyStrip l = fc
    · simp [hl]
    · simp only [hl, if_neg, decide_eq_true_eq, if_false, ih, Option.map_map]
      cases hfi : rest.findIdx? (fun l => decide (pyStrip l = fc)) with
      | none => simp
      | some i => simp [Function.comp, List.take_succ_cons]

/-- The intent search equals its declarative description: locate the first
matching line, then the nearest preceding comment line, with the synthesized
intent as the fallback in both failure cases. -/
theorem findIntent_eq (sl : List (List Char)) (fc : List Char) :
    findIntent sl fc =
      match sl.findIdx? (fun l => decide (pyStrip l = fc)) with
      | none => defaultIntent fc
      | some i =>
        match (sl.take i).reverse.find? isCommentLine with
        | none => defaultIntent fc
        | some cl => cleanComment cl := by
  unfold findIntent
  rw [linesBefore_eq]
  cases hfi : sl.findIdx? (fun l => decide (pyStrip l = fc)) with
  | none => rfl
  | some i => rfl

/-- C7: `extract_failing_context` returns no failing command exactly when
neither the primary nor the fallback pattern matches the traceback (and then
reports the fixed no-intent string); otherwise the failing command is the
stripped last capture of the primary pattern — or of the fallback pattern
when the primary found nothing — and the intent is the nearest comment line
preceding the first script line whose stripped text equals the failing
command, with `"Perform the action: <failing_command>"` synthesized when no
such line or no such comment exists. -/
theorem extract_failing_context_spec (tb script : String) :
    ((extract_failing_context tb script).1 = none ↔
      (primaryMatches tb = [] ∧ fallbackMatches tb = []))
    ∧ ((extract_failing_context tb script).1 = none →
        (extract_failing_context tb script).2 = "No specific user intent comment found.")
    ∧ (∀ lastm,
        (if (primaryMatches tb).isEmpty then fallbackMatches tb
         else primaryMatches tb).getLast? = some lastm →
        (extract_failing_context tb script).1 = some (String.mk (pyStrip lastm))
        ∧ (extract_failing_context tb script).2 = String.mk (
            match ((splitLines script).map String.data).findIdx?
                (fun l => decide (pyStrip l = pyStrip lastm)) with
            | none => defaultIntent (pyStrip lastm)
            | some i =>
              match ((((splitLines script).map String.data).take i).reverse.find?
                  isCommentLine) with
              | none => defaultIntent (pyStrip lastm)
              | some cl => cleanComment cl)) := by
  refine ⟨?_, ?_, ?_⟩
  · simp only [extract_failing_context]
    cases hgl : (if (primaryMatches tb).isEmpty then fallbackMatches tb
        else primaryMatches tb).getLast? with
    | none =>
      simp only [Option.map_none]
      rw [List.getLast?_eq_none_iff] at hgl
      constructor
      · intro _
        by_cases hp : (primaryMatches tb).isEmpty
        · exact ⟨List.isEmpty_iff.mp hp, by simpa [hp] using hgl⟩
        · rw [if_neg hp] at hgl
          exact absurd (List.isEmpty_iff.mpr hgl) hp
      · intro _; trivial
    | some lastm =>
      simp only
      constructor
      · intro hcontra; cases hcontra
      · rintro ⟨hp, hf⟩
        rw [List.getLast?_eq_none_iff.mpr (by simp [hp, hf])] at hgl
        cases hgl
  · intro hnone
    simp only [extract_failing_context] at hnone ⊢
    cases hgl : (if (primaryMatches tb).isEmpty then fallbackMatches tb
        else primaryMatches tb).getLast? with
    | none => rfl
    | some lastm => rw [hgl] at hnone; cases hnone
  · intro lastm hgl
    simp only [extract_failing_context]
    rw [hgl]
    exact ⟨rfl, congrArg String.mk (findIntent_eq _ _)⟩

/-- Witness for C7 at a concrete traceback and script: the primary pattern's
last capture is extracted and the preceding comment becomes the intent. -/
theorem extract_failing_context_spec_witness :
    (extract_failing_context sampleTraceback sampleScript).1 = some "page.clickX()"
    ∧ (extract_failing_context sampleTraceback sampleScript).2 = "Click the thing" := by
  have h := (extract_failing_context_spec sampleTraceback sampleScript).2.2
    "page.clickX()".data (by decide)
  refine ⟨?_, ?_⟩
  · rw [h.1]; decide
  · rw [h.2]; decide

/-- C8: `get_ai_fix_for_selector` never propagates a failure to its caller:
for every input and every behaviour of the language-model request and of the
JSON parser, the result is either a parsed JSON object or `none`, and it is
`none` whenever the request raised (or timed out), whenever the response
contains no brace-delimited region, and whenever the extracted region fails
to parse or parses to a non-object value. -/
theorem get_ai_fix_for_selector_total_spec (fc ui dom em : String)
    (invokeRes : Option String) (jsonLoads : String → Option PyVal) :
    (get_ai_fix_for_selector fc ui dom em invokeRes jsonLoads = none ∨
      ∃ d, get_ai_fix_for_selector fc ui dom em invokeRes jsonLoads = some (PyVal.dict d))
    ∧ (invokeRes = none → get_ai_fix_for_selector fc ui dom em invokeRes jsonLoads = none)
    ∧ (∀ content, invokeRes = some content →
        (pyFind content.data '{' = none ∨ pyRFind content.data '}' = none) →
        get_ai_fix_for_selector fc ui dom em invokeRes jsonLoads = none)
    ∧ (∀ content js je, invokeRes = some content →
        pyFind content.data '{' = some js → pyRFind content.data '}' = some je →
        (jsonLoads (String.mk ((content.data.drop js).take (je + 1 - js))) = none ∨
         jsonLoads (String.mk ((content.data.drop js).take (je + 1 - js))) =
           some PyVal.nondict) →
        get_ai_fix_for_selector fc ui dom em invokeRes jsonLoads = none) := by
  refine ⟨?_, ?_, ?_, ?_⟩
  · cases invokeRes with
    | none => exact Or.inl rfl
    | some content =>
      simp only [get_ai_fix_for_selector]
      repeat' split
      all_goals first | exact Or.inl rfl | exact Or.inr ⟨_, rfl⟩
  · intro hinv; subst hinv; rfl
  · intro content hinv hbr
    subst hinv
    simp only [get_ai_fix_for_selector]
    rcases hbr with hb | hb
    · rw [hb]
    · rcases h2 : pyFind content.data '{' with _ | js
      · rfl
      · rw [hb]
  · intro content js je hinv hjs hje hload
    subst hinv
    simp only [get_ai_fix_for_selector]
    rw [hjs, hje]
    show (match jsonLoads (String.mk ((content.data.drop js).take (je + 1 - js))) with
      | none => none
      | some (PyVal.dict fc) => some (PyVal.dict fc)
      | some PyVal.nondict => none) = none
    rcases hload with hl | hl <;> rw [hl]

/-- Witness for C8: an advisor response with no brace-delimited JSON region
is reported as "no fix available" (a `none` result), not an exception. -/
theorem get_ai_fix_for_selector_total_spec_witness :
    get_ai_fix_for_selector "cmd" "intent" "<html>" "err" (some "no json here")
      alwaysFailParse = none :=
  (get_ai_fix_for_selector_total_spec "cmd" "intent" "<html>" "err"
      (some "no json here") alwaysFailParse).2.2.1 "no json here" rfl
    (Or.inl (by decide))

/-- Witness for C3 at a concrete iteration: a failing attempt whose output
matches no repairable signature makes the loop abort without an advisor
call. -/
theorem advisor_called_only_when_repairable_context_dom_witness :
    (healStepCore inertHealEnv 0 1 0 "s" ⟨1, "plain crash", ""⟩).advisorCall = none
    ∧ ((healStepCore inertHealEnv 0 1 0 "s" ⟨1, "plain crash", ""⟩).action =
          StepAction.abortMax
       ∨ (healStepCore inertHealEnv 0 1 0 "s" ⟨1, "plain crash", ""⟩).action =
          StepAction.abortHeal) :=
  advisor_called_only_when_repairable_context_dom.2 inertHealEnv 0 1 0 "s"
    ⟨1, "plain crash", ""⟩ (by decide) (by decide) (Or.inl (by decide))
